import Mathlib

/-!
Shallow embedding of the Raft consensus node implemented in
`src/src/lib/raft.go` (package `lib`).

Modelling conventions:
* Go `net.Addr` values are compared by their `String()` form throughout the
  source, so addresses are modelled as `String`.
* Go `map[net.Addr]int` is modelled as an association list with the Go
  zero-value default (a missing key reads as `0`).
* Go `int` is modelled as `Int` (indices such as `commitIndex` are `-1` based).
* A Go runtime panic (out-of-range slice index, nil-pointer dereference) is
  modelled as `Option.none`.
* The mutex, timers and the RPC transport are elided: each RPC handler and
  internal step is modelled as a pure state transformer on `RaftNode`.
  Outbound messages are returned as data instead of being sent.
-/

namespace Raft

abbrev Addr := String

/-- Association-list lookup with the Go map zero-value default `0`. -/
def lookupMap (m : List (Addr × Int)) (a : Addr) : Int :=
  match m.find? (fun p => p.1 == a) with
  | some p => p.2
  | none => 0

/-- Association-list update, modelling Go map assignment `m[a] = v`. -/
def insertMap (m : List (Addr × Int)) (a : Addr) (v : Int) : List (Addr × Int) :=
  match m with
  | [] => [(a, v)]
  | (k, w) :: rest => if k == a then (k, v) :: rest else (k, w) :: insertMap rest a v

/-- Modelled from the spec: the key-value state machine (`KVStore` with
`Get`, `Set`, `Append`, `Delete`, `Len`) is part of this repository but its
source file is not under `src/`; only `raft.go`'s calls to it are visible.
Per the spec it is an in-memory map from string keys to string values:
`get K` reads (empty if absent), `set K V` stores, `append K V` concatenates,
`del K` deletes returning the prior value, `strlen K` is the value's length. -/
structure KVStore where
  store : List (String × String)
deriving DecidableEq

def NewKVStore : KVStore := ⟨[]⟩

def KVStore.Get (kv : KVStore) (k : String) : String :=
  match kv.store.find? (fun p => p.1 == k) with
  | some p => p.2
  | none => ""

def KVStore.Set (kv : KVStore) (k v : String) : KVStore :=
  ⟨(k, v) :: kv.store.filter (fun p => p.1 != k)⟩

def KVStore.Append (kv : KVStore) (k v : String) : KVStore :=
  kv.Set k (kv.Get k ++ v)

def KVStore.Delete (kv : KVStore) (k : String) : KVStore × String :=
  (⟨kv.store.filter (fun p => p.1 != k)⟩, kv.Get k)

def KVStore.Len (kv : KVStore) (k : String) : Nat :=
  (kv.Get k).length

/-- `LogEntry` from raft.go lines 30-33. -/
structure LogEntry where
  term : Int
  command : String
deriving DecidableEq

/-- `NodeType` from raft.go lines 15-21. -/
inductive NodeType where
  | LEADER
  | CANDIDATE
  | FOLLOWER
deriving DecidableEq

/-- `RaftVoteRequest` from raft.go lines 62-67. -/
structure RaftVoteRequest where
  term : Int
  candidateId : Addr
  lastLogIndex : Int
  lastLogTerm : Int
deriving DecidableEq

/-- `RaftVoteResponse` from raft.go lines 69-72. -/
structure RaftVoteResponse where
  term : Int
  voteGranted : Bool
deriving DecidableEq

/-- `AppendEntriesRequest` from raft.go lines 74-81. -/
structure AppendEntriesRequest where
  term : Int
  leaderId : Addr
  prevLogIndex : Int
  prevLogTerm : Int
  entries : List LogEntry
  leaderCommit : Int
deriving DecidableEq

/-- `AppendEntriesResponse` from raft.go lines 83-86. -/
structure AppendEntriesResponse where
  term : Int
  success : Bool
deriving DecidableEq

/-- `RaftNode` from raft.go lines 36-60 (mutex, tickers and the live TCP
address values are elided; `clusterLeader : *net.TCPAddr` and
`votedFor : net.Addr` may be nil, hence `Option`). -/
structure RaftNode where
  address : Addr
  nodeType : NodeType
  app : KVStore
  clusterAddrList : List Addr
  clusterLeader : Option Addr
  contactAddr : Option Addr
  electionTerm : Int
  currentTerm : Int
  votedFor : Option Addr
  log : List LogEntry
  commitIndex : Int
  lastApplied : Int
  nextIndex : List (Addr × Int)
  matchIndex : List (Addr × Int)
deriving DecidableEq

/-- The `Execute`/`RequestLog` JSON reply: either the not-leader error object
`{error: "Not leader", leaderAddr: ...}` or the `{result, ok}` object. -/
inductive ExecuteReply where
  | notLeader (leaderAddr : String)
  | result (res : String) (ok : Bool)
deriving DecidableEq

/-- Go slice indexing `l[i]` with an `int` index: panics (here `none`)
unless `0 ≤ i < l.length`. -/
def listGetInt (l : List LogEntry) (i : Int) : Option LogEntry :=
  if 0 ≤ i then l.get? i.toNat else none

/-- Term of the entry at integer index `i`, with the sentinel `0` when out of
range (used only to state properties; the code itself panics out of range). -/
def termAt (l : List LogEntry) (i : Int) : Int :=
  match listGetInt l i with
  | some e => e.term
  | none => 0

/-- Go `(*net.TCPAddr).String()`, which renders a nil pointer as "<nil>". -/
def leaderAddrString (a : Option Addr) : String :=
  match a with
  | some s => s
  | none => "<nil>"

/-- Character-level worker for `fields`: walk the characters, accumulating
the current token (in reverse) and emitting it at each space or at the end;
empty tokens are dropped. -/
def fieldsAux : List Char → List Char → List String
  | [], acc => if acc.isEmpty then [] else [String.mk acc.reverse]
  | c :: cs, acc =>
    if c = ' ' then
      if acc.isEmpty then fieldsAux cs []
      else String.mk acc.reverse :: fieldsAux cs []
    else fieldsAux cs (c :: acc)

/-- `strings.Fields`: split on whitespace, dropping empty tokens (the
commands in this development are space-separated). raft.go line 526. -/
def fields (s : String) : List String :=
  fieldsAux s.data []

/-- `apply` from raft.go lines 524-569: parse the textual command and run it
against the in-memory key-value store. -/
def RaftNode.apply (node : RaftNode) (command : String) : RaftNode × String × Bool :=
  match fields command with
  | [] => (node, "", false)
  | verb :: rest =>
    if verb == "get" then
      match rest with
      | k :: _ => (node, node.app.Get k, true)
      | [] => (node, "", false)
    else if verb == "strlen" then
      match rest with
      | k :: _ => (node, toString (node.app.Len k), true)
      | [] => (node, "", false)
    else if verb == "del" then
      match rest with
      | k :: _ =>
        let r := node.app.Delete k
        ({ node with app := r.1 }, r.2, true)
      | [] => (node, "", false)
    else if verb == "set" then
      match rest with
      | k :: v :: _ => ({ node with app := node.app.Set k v }, "OK", true)
      | _ => (node, "", false)
    else if verb == "append" then
      match rest with
      | k :: v :: _ => ({ node with app := node.app.Append k v }, "OK", true)
      | _ => (node, "", false)
    else
      (node, "", false)

/-- `commit` from raft.go lines 508-522: if `commitIndex > lastApplied`,
increment `lastApplied` once and apply that single entry; otherwise return
`("", false)`. Note the Go source uses `if`, not `while`. -/
def RaftNode.commit (node : RaftNode) : Option (RaftNode × String × Bool) :=
  if node.lastApplied < node.commitIndex then
    match listGetInt node.log (node.lastApplied + 1) with
    | some entry =>
      some (({ node with lastApplied := node.lastApplied + 1 } : RaftNode).apply entry.command)
    | none => none
  else
    some (node, "", false)

/-- Receiver-side `lastLogTerm` computed at raft.go lines 223-229: `0` when
the log is empty, otherwise the last entry's term. -/
def localLastLogTerm (node : RaftNode) : Int :=
  match node.log.getLast? with
  | none => 0
  | some e => e.term

/-- `RequestVote` from raft.go lines 198-258. The term branch rejects when
`args.Term > node.currentTerm` (the comparison in the source). Otherwise the
vote is granted iff (`votedFor` nil or equal to the candidate) and
`args.LastLogIndex >= len(log)-1 && args.LastLogTerm >= lastLogTerm`. -/
def RaftNode.RequestVote (node : RaftNode) (args : RaftVoteRequest) :
    RaftNode × RaftVoteResponse :=
  if node.currentTerm < args.term then
    (node, { term := node.currentTerm, voteGranted := false })
  else
    if (node.votedFor == none || node.votedFor == some args.candidateId)
        && ((node.log.length : Int) - 1 ≤ args.lastLogIndex
            && localLastLogTerm node ≤ args.lastLogTerm) then
      ({ node with votedFor := some args.candidateId },
       { term := node.currentTerm, voteGranted := true })
    else
      (node, { term := node.currentTerm, voteGranted := false })

/-- Truncate-and-append block of `AppendEntries`, raft.go lines 314-321: on a
heartbeat (empty `entries`) the log is untouched, otherwise the log becomes
`log[:prevLogIndex+1]` followed by `entries`. -/
def truncateAppend (node : RaftNode) (args : AppendEntriesRequest) : RaftNode :=
  if args.entries.isEmpty then node
  else { node with log := node.log.take (args.prevLogIndex + 1).toNat ++ args.entries }

/-- Commit-advance block of `AppendEntries`, raft.go lines 323-325:
if `leaderCommit > commitIndex` then `commitIndex = min(leaderCommit, len(log)-1)`. -/
def advanceCommit (node : RaftNode) (args : AppendEntriesRequest) : RaftNode :=
  if node.commitIndex < args.leaderCommit then
    { node with commitIndex := min args.leaderCommit ((node.log.length : Int) - 1) }
  else node

/-- Accepting branch of `AppendEntries`, raft.go lines 312-346: truncate and
append, raise `commitIndex` from `leaderCommit`, run `commit` once when
`commitIndex > lastApplied`, and reply `success=true`. -/
def acceptEntries (node : RaftNode) (args : AppendEntriesRequest) :
    Option (RaftNode × AppendEntriesResponse) :=
  if (advanceCommit (truncateAppend node args) args).lastApplied <
      (advanceCommit (truncateAppend node args) args).commitIndex then
    match (advanceCommit (truncateAppend node args) args).commit with
    | some (node3, _, _) => some (node3, { term := node.currentTerm, success := true })
    | none => none
  else
    some (advanceCommit (truncateAppend node args) args,
          { term := node.currentTerm, success := true })

/-- `AppendEntries` from raft.go lines 261-347: reject on a stale term; then
the consistency check (`prevLogIndex == -1`, or the log is long enough and
the term at `prevLogIndex` matches); on pass, `acceptEntries`. -/
def RaftNode.AppendEntries (node : RaftNode) (args : AppendEntriesRequest) :
    Option (RaftNode × AppendEntriesResponse) :=
  if args.term < node.currentTerm then
    some (node, { term := node.currentTerm, success := false })
  else if args.prevLogIndex == -1 then
    acceptEntries node args
  else if (node.log.length : Int) - 1 < args.prevLogIndex then
    some (node, { term := node.currentTerm, success := false })
  else
    match listGetInt node.log args.prevLogIndex with
    | none => none
    | some e =>
      if e.term != args.prevLogTerm then
        some (node, { term := node.currentTerm, success := false })
      else
        acceptEntries node args

/-- `startElection` from raft.go lines 349-405: become candidate, increment
`electionTerm` (not `currentTerm`), clear the leader, then build one
`RequestVote` per peer, skipping both self and the contact address; each
request carries `Term = electionTerm`, `LastLogIndex = len(log)-1` and
`LastLogTerm = 0`. Dereferencing a nil `contactAddr` would panic (`none`). -/
def RaftNode.startElection (node : RaftNode) :
    Option (RaftNode × List (Addr × RaftVoteRequest)) :=
  match node.contactAddr with
  | none => none
  | some c =>
    let node1 := { node with
      nodeType := NodeType.CANDIDATE,
      electionTerm := node.electionTerm + 1,
      clusterLeader := none }
    let req : RaftVoteRequest :=
      { term := node1.electionTerm,
        candidateId := node1.address,
        lastLogIndex := (node1.log.length : Int) - 1,
        lastLogTerm := 0 }
    let targets := node1.clusterAddrList.filter (fun a => !(a == node1.address || a == c))
    some (node1, targets.map (fun a => (a, req)))

/-- `initializeAsLeader` from raft.go lines 146-164: become leader of a
cluster containing self, and initialise `nextIndex`/`matchIndex` for every
address in the cluster list. -/
def initAsLeader (node : RaftNode) : RaftNode :=
  let node1 := { node with
    nodeType := NodeType.LEADER,
    clusterLeader := some node.address,
    clusterAddrList := node.clusterAddrList ++ [node.address] }
  let maps := node1.clusterAddrList.foldl
    (fun (p : List (Addr × Int) × List (Addr × Int)) a =>
      (insertMap p.1 a (node1.log.length : Int), insertMap p.2 a (-1)))
    (node1.nextIndex, node1.matchIndex)
  { node1 with nextIndex := maps.1, matchIndex := maps.2 }

/-- `NewRaftNode` from raft.go lines 90-144. Every node starts as a follower
with the three placeholder entries appended to an empty log, then a seedless
node initialises itself as leader. A seeded node runs `tryToApplyMembership`
(lines 407-437), which only installs `clusterAddrList` and `clusterLeader`
from the seed's network response and never touches the log or the commit
indices; the network exchange is elided here. -/
def NewRaftNode (addr : Addr) (contactAddr : Option Addr) : RaftNode :=
  let node : RaftNode := {
    address := addr,
    nodeType := NodeType.FOLLOWER,
    app := NewKVStore,
    clusterAddrList := [],
    clusterLeader := none,
    contactAddr := contactAddr,
    electionTerm := 0,
    currentTerm := 0,
    votedFor := none,
    log := [{ term := 0, command := "zero" },
            { term := 1, command := "one" },
            { term := 2, command := "two" }],
    commitIndex := -1,
    lastApplied := -1,
    nextIndex := [],
    matchIndex := [] }
  match contactAddr with
  | none => initAsLeader node
  | some _ => node

/-- `Execute` from raft.go lines 571-682, sequentialised. A non-leader
replies with the not-leader error and the leader hint. A leader appends
`{currentTerm, cmd}` to its log and fans out `AppendEntries` (elided; the
per-response bookkeeping is `handleAppendResponse` below). `acks` is the
number of successful follower acknowledgements collected on the `responses`
channel; when it exceeds `len(clusterAddrList)/2` the leader runs `commit`
once and replies `{result, ok}`; otherwise no reply is ever written. -/
def RaftNode.Execute (node : RaftNode) (cmd : String) (acks : Nat) :
    Option (RaftNode × Option ExecuteReply) :=
  if node.nodeType ≠ NodeType.LEADER then
    some (node, some (ExecuteReply.notLeader (leaderAddrString node.clusterLeader)))
  else
    if node.clusterAddrList.length / 2 < acks then
      match ({ node with
          log := node.log ++ [{ term := node.currentTerm, command := cmd }] } : RaftNode).commit with
      | some (node2, res, ok) => some (node2, some (ExecuteReply.result res ok))
      | none => none
    else
      some ({ node with
          log := node.log ++ [{ term := node.currentTerm, command := cmd }] }, none)

/-- Per-response bookkeeping of the replication goroutine in `Execute`,
raft.go lines 619-647. On success: `nextIndex[addr]++`, loop done. On
failure: `request.PrevLogIndex--`, `nextIndex[addr]--`, refresh
`request.PrevLogTerm` from the leader's log (`0` when the index went
negative), loop continues. `matchIndex` is never updated. -/
def handleAppendResponse (node : RaftNode) (addr : Addr) (req : AppendEntriesRequest)
    (success : Bool) : Option (RaftNode × AppendEntriesRequest × Bool) :=
  if success then
    some ({ node with nextIndex := insertMap node.nextIndex addr (lookupMap node.nextIndex addr + 1) },
          req, true)
  else
    if req.prevLogIndex - 1 < 0 then
      some ({ node with nextIndex := insertMap node.nextIndex addr (lookupMap node.nextIndex addr - 1) },
            { req with prevLogIndex := req.prevLogIndex - 1, prevLogTerm := (0 : Int) }, false)
    else
      match listGetInt node.log (req.prevLogIndex - 1) with
      | some e =>
        some ({ node with nextIndex := insertMap node.nextIndex addr (lookupMap node.nextIndex addr - 1) },
              { req with prevLogIndex := req.prevLogIndex - 1, prevLogTerm := e.term }, false)
      | none => none

/-- State-threading helper to write multi-step runs of the `AppendEntries`
handler: feed the node coming out of one call into the next. -/
def stepAE (s : Option RaftNode) (req : AppendEntriesRequest) : Option RaftNode :=
  s.bind (fun n => (n.AppendEntries req).map Prod.fst)

/-! ### Helper lemmas -/

theorem lookupMap_insertMap_self (m : List (Addr × Int)) (a : Addr) (v : Int) :
    lookupMap (insertMap m a v) a = v := by
  induction m with
  | nil => simp [insertMap, lookupMap, List.find?]
  | cons p rest ih =>
    obtain ⟨k, w⟩ := p
    by_cases hk : k == a
    · simp [insertMap, hk, lookupMap, List.find?]
    · simp only [insertMap, hk, Bool.false_eq_true, if_false]
      simpa [lookupMap, List.find?, hk] using ih

theorem apply_state (node : RaftNode) (c : String) :
    (node.apply c).1.lastApplied = node.lastApplied ∧
    (node.apply c).1.commitIndex = node.commitIndex ∧
    (node.apply c).1.log = node.log := by
  unfold RaftNode.apply
  repeat' split
  all_goals exact ⟨rfl, rfl, rfl⟩

theorem commit_state (node n' : RaftNode) (r : String) (o : Bool)
    (h : node.commit = some (n', r, o)) :
    n'.commitIndex = node.commitIndex ∧ node.lastApplied ≤ n'.lastApplied ∧
    n'.log = node.log := by
  unfold RaftNode.commit at h
  split at h
  · split at h
    · next entry heq =>
      injection h with h
      have hfst : (({ node with lastApplied := node.lastApplied + 1 } : RaftNode).apply
          entry.command).1 = n' := congrArg Prod.fst h
      obtain ⟨h1, h2, h3⟩ := apply_state
        ({ node with lastApplied := node.lastApplied + 1 } : RaftNode) entry.command
      refine ⟨?_, ?_, ?_⟩
      · rw [← hfst]; exact h2
      · rw [← hfst, h1]
        show node.lastApplied ≤ node.lastApplied + 1
        omega
      · rw [← hfst]; exact h3
    · exact absurd h (by simp)
  · injection h with h
    have hfst : node = n' := congrArg Prod.fst h
    subst hfst
    exact ⟨rfl, le_refl _, rfl⟩

theorem truncateAppend_state (node : RaftNode) (args : AppendEntriesRequest) :
    (truncateAppend node args).commitIndex = node.commitIndex ∧
    (truncateAppend node args).lastApplied = node.lastApplied ∧
    (truncateAppend node args).currentTerm = node.currentTerm ∧
    (truncateAppend node args).log =
      (if args.entries.isEmpty then node.log
       else node.log.take (args.prevLogIndex + 1).toNat ++ args.entries) := by
  unfold truncateAppend
  split <;> simp_all

theorem advanceCommit_state (node : RaftNode) (args : AppendEntriesRequest) :
    (advanceCommit node args).lastApplied = node.lastApplied ∧
    (advanceCommit node args).log = node.log ∧
    (advanceCommit node args).currentTerm = node.currentTerm ∧
    ((advanceCommit node args).commitIndex = node.commitIndex ∨
     (node.commitIndex < args.leaderCommit ∧
      (advanceCommit node args).commitIndex =
        min args.leaderCommit ((node.log.length : Int) - 1))) := by
  unfold advanceCommit
  split <;> simp_all

theorem acceptEntries_spec (node n' : RaftNode) (args : AppendEntriesRequest)
    (resp : AppendEntriesResponse)
    (h : acceptEntries node args = some (n', resp)) :
    resp = { term := node.currentTerm, success := true } ∧
    n'.log = (if args.entries.isEmpty then node.log
              else node.log.take (args.prevLogIndex + 1).toNat ++ args.entries) ∧
    node.lastApplied ≤ n'.lastApplied ∧
    ((advanceCommit (truncateAppend node args) args).commitIndex = n'.commitIndex) := by
  obtain ⟨ht1, ht2, ht3, ht4⟩ := truncateAppend_state node args
  obtain ⟨ha1, ha2, ha3, _⟩ := advanceCommit_state (truncateAppend node args) args
  unfold acceptEntries at h
  split at h
  · split at h
    · next node3 r o heq =>
      injection h with h
      have hn : node3 = n' := congrArg Prod.fst h
      have hresp : resp = { term := node.currentTerm, success := true } :=
        (congrArg (fun p => p.2) h).symm
      obtain ⟨hc1, hc2, hc3⟩ := commit_state _ _ _ _ heq
      rw [hn] at hc1 hc2 hc3
      refine ⟨hresp, ?_, ?_, ?_⟩
      · rw [hc3, ha2, ht4]
      · rw [← ht2, ← ha1]; exact hc2
      · exact hc1.symm
    · exact absurd h (by simp)
  · injection h with h
    have hn : advanceCommit (truncateAppend node args) args = n' := congrArg Prod.fst h
    have hresp : resp = { term := node.currentTerm, success := true } :=
      (congrArg (fun p => p.2) h).symm
    refine ⟨hresp, ?_, ?_, ?_⟩
    · rw [← hn, ha2, ht4]
    · rw [← hn, ha1, ht2]
    · rw [hn]

theorem listGetInt_some (l : List LogEntry) (i : Int) (e : LogEntry)
    (h : listGetInt l i = some e) :
    0 ≤ i ∧ i < (l.length : Int) ∧ termAt l i = e.term := by
  unfold listGetInt at h
  split at h
  · next hi =>
    have hlt : i.toNat < l.length := by
      by_contra hge
      rw [List.get?_eq_none.mpr (le_of_not_lt hge)] at h
      exact absurd h (by simp)
    refine ⟨hi, ?_, ?_⟩
    · omega
    · unfold termAt listGetInt
      rw [if_pos hi, h]
  · exact absurd h (by simp)

theorem appendEntries_cases (node n' : RaftNode) (args : AppendEntriesRequest)
    (resp : AppendEntriesResponse) (h : node.AppendEntries args = some (n', resp)) :
    n' = node ∨ acceptEntries node args = some (n', resp) := by
  unfold RaftNode.AppendEntries at h
  split at h
  · exact Or.inl (congrArg Prod.fst (Option.some.inj h)).symm
  · split at h
    · exact Or.inr h
    · split at h
      · exact Or.inl (congrArg Prod.fst (Option.some.inj h)).symm
      · split at h
        · exact absurd h (by simp)
        · split at h
          · exact Or.inl (congrArg Prod.fst (Option.some.inj h)).symm
          · exact Or.inr h

/-! ### Claim theorems -/

/-- C10: every node built by `NewRaftNode` — seedless bootstrap leader or
joining follower alike — boots with exactly the three placeholder entries
`{term 0, "zero"}`, `{term 1, "one"}`, `{term 2, "two"}` in its log (so
`len(log) = 3`), while `commitIndex` and `lastApplied` start at `-1`. -/
theorem C10_initial_log_placeholders (addr : Addr) (contactAddr : Option Addr) :
    (NewRaftNode addr contactAddr).log =
      [{ term := 0, command := "zero" }, { term := 1, command := "one" },
       { term := 2, command := "two" }] ∧
    (NewRaftNode addr contactAddr).log.length = 3 ∧
    (NewRaftNode addr contactAddr).commitIndex = -1 ∧
    (NewRaftNode addr contactAddr).lastApplied = -1 := by
  cases contactAddr <;> exact ⟨rfl, rfl, rfl, rfl⟩

/-- C9: a node whose role is not Leader answers `Execute` with the
`{error: "Not leader", leaderAddr: <hint>}` reply and leaves the whole node
state (log included) unchanged. -/
theorem C9_execute_not_leader (node : RaftNode) (cmd : String) (acks : Nat)
    (h : node.nodeType ≠ NodeType.LEADER) :
    node.Execute cmd acks =
      some (node, some (ExecuteReply.notLeader (leaderAddrString node.clusterLeader))) := by
  unfold RaftNode.Execute
  rw [if_pos h]

theorem C9_execute_not_leader_witness :
    (NewRaftNode "a" (some "s")).nodeType ≠ NodeType.LEADER ∧
    (NewRaftNode "a" (some "s")).Execute "set x 1" 0 =
      some (NewRaftNode "a" (some "s"),
            some (ExecuteReply.notLeader
              (leaderAddrString (NewRaftNode "a" (some "s")).clusterLeader))) :=
  ⟨by decide, C9_execute_not_leader (NewRaftNode "a" (some "s")) "set x 1" 0 (by decide)⟩

/-- C1: the claim says that once a majority acknowledges, the leader advances
`commitIndex` to the new entry's index, applies the entry and replies with the
applied result and `ok = true`. The code instead calls `commit()`, which never
advances `commitIndex`; on a fresh leader (`commitIndex = lastApplied = -1`)
nothing is applied and the reply is `{result: "", ok: false}`. Failing input:
a bootstrap leader with cluster `["a","b","c"]` executing `"set x 1"` with 2
successful follower acks (2 > 3/2): the command is appended at index 3 with
term `currentTerm`, yet `commitIndex` stays `-1` and the reply carries
`ok = false`. -/
theorem C1_execute_no_commit_advance :
    (({ NewRaftNode "a" none with clusterAddrList := ["a", "b", "c"] } : RaftNode).Execute
        "set x 1" 2).map
      (fun p => (p.1.commitIndex, p.1.lastApplied, p.1.log.length,
                 p.1.log.getLast?, p.2)) =
      some (-1, -1, 4, some { term := 0, command := "set x 1" },
            some (ExecuteReply.result "" false)) := by decide

/-- C2: the claim says the term check rejects exactly when
`args.term < currentTerm`. In the source the comparison is inverted
(raft.go line 209: `if args.Term > node.currentTerm` rejects). Failing input:
a node with `currentTerm = 5`; a stale request with `term = 3 < 5` slips past
the term check and is even granted, while a request with `term = 9 ≥ 5` is
rejected by the term check. -/
theorem C2_requestVote_term_check_inverted :
    ((({ NewRaftNode "a" (some "s") with currentTerm := 5 } : RaftNode).RequestVote
        { term := 3, candidateId := "c", lastLogIndex := 2, lastLogTerm := 9 }).2.voteGranted
      = true) ∧
    (3 : Int) < 5 ∧
    ((({ NewRaftNode "a" (some "s") with currentTerm := 5 } : RaftNode).RequestVote
        { term := 9, candidateId := "c", lastLogIndex := 2, lastLogTerm := 9 }).2.voteGranted
      = false) ∧
    (5 : Int) < 9 := by decide

/-- C4: the claim says the election timer handler increments `currentTerm`,
votes for itself, and solicits every peer but itself with the real last log
term. The source instead increments the separate `electionTerm` counter,
leaves `currentTerm` and `votedFor` untouched, sends `lastLogTerm = 0`
unconditionally, and also skips the contact (seed) address. Failing input: a
node at address "a" with seed "s", cluster `["a","s","b"]`, `currentTerm = 7`
and last log term `2`: after `startElection`, `currentTerm` is still `7`,
`electionTerm` is `1`, `votedFor` is still none, and the only solicitation
goes to "b" with `lastLogTerm = 0`. -/
theorem C4_startElection_divergence :
    (({ NewRaftNode "a" (some "s") with
        clusterAddrList := ["a", "s", "b"]
        currentTerm := 7 } : RaftNode).startElection).map
      (fun p => (p.1.nodeType, p.1.electionTerm, p.1.currentTerm, p.1.votedFor,
                 p.1.clusterLeader,
                 p.2.map (fun q => (q.1, q.2.term, q.2.lastLogIndex, q.2.lastLogTerm)))) =
      some (NodeType.CANDIDATE, 1, 7, none, none, [("b", 1, 2, 0)]) := by rfl

/-- C3 counterexample: a fresh node (local last log term `2`, last index `2`,
`votedFor` none, `currentTerm` 0) receives a request that passes the term
check with `lastLogTerm = 5 > 2` and `lastLogIndex = 0 < 2`. The claim's
up-to-date rule (strictly greater last term wins) demands a grant, but the
code rejects because its rule also requires `lastLogIndex ≥ len(log) - 1`. -/
theorem C3_upToDate_counterexample :
    ¬ (NewRaftNode "a" (some "s")).currentTerm < (0 : Int) ∧
    (NewRaftNode "a" (some "s")).votedFor = none ∧
    localLastLogTerm (NewRaftNode "a" (some "s")) < 5 ∧
    ((NewRaftNode "a" (some "s")).RequestVote
        { term := 0, candidateId := "c", lastLogIndex := 0, lastLogTerm := 5 }).2.voteGranted
      = false := by decide

/-- C3 (amended): for every `RequestVote` request that reaches the grant rule
(i.e. is not rejected by the source's term branch, `args.term ≤ currentTerm`),
the vote is granted iff (`votedFor` is none or equals the candidate) and
`args.lastLogIndex ≥ len(log) - 1` and `args.lastLogTerm ≥ localLastLogTerm`
(both compared with `≥`, a conjunction — not the claim's strictly-greater-term
disjunction); on grant `votedFor` is set to the candidate, and on rejection
the node is unchanged. -/
theorem C3_grant_rule_amended (node : RaftNode) (args : RaftVoteRequest)
    (hterm : ¬ node.currentTerm < args.term) :
    ((node.RequestVote args).2.voteGranted = true ↔
      ((node.votedFor = none ∨ node.votedFor = some args.candidateId) ∧
       (node.log.length : Int) - 1 ≤ args.lastLogIndex ∧
       localLastLogTerm node ≤ args.lastLogTerm)) ∧
    ((node.RequestVote args).2.voteGranted = true →
      (node.RequestVote args).1.votedFor = some args.candidateId) ∧
    ((node.RequestVote args).2.voteGranted = false →
      (node.RequestVote args).1 = node) := by
  unfold RaftNode.RequestVote
  rw [if_neg hterm]
  split
  · next hc =>
    simp only [Bool.and_eq_true, Bool.or_eq_true, beq_iff_eq, decide_eq_true_eq] at hc
    refine ⟨?_, fun _ => rfl, fun hfalse => absurd hfalse (by simp)⟩
    simp only [true_iff]
    exact ⟨hc.1, hc.2.1, hc.2.2⟩
  · next hc =>
    refine ⟨?_, fun htrue => absurd htrue (by simp), fun _ => rfl⟩
    simp only [Bool.false_eq_true, false_iff]
    intro ⟨h1, h2, h3⟩
    exact hc (by simp only [Bool.and_eq_true, Bool.or_eq_true, beq_iff_eq,
      decide_eq_true_eq]; exact ⟨h1, h2, h3⟩)

theorem C3_grant_rule_amended_witness :
    (((NewRaftNode "a" (some "s")).RequestVote
        { term := 0, candidateId := "c", lastLogIndex := 2, lastLogTerm := 2 }).2.voteGranted = true ↔
      (((NewRaftNode "a" (some "s")).votedFor = none ∨
        (NewRaftNode "a" (some "s")).votedFor = some "c") ∧
       ((NewRaftNode "a" (some "s")).log.length : Int) - 1 ≤ 2 ∧
       localLastLogTerm (NewRaftNode "a" (some "s")) ≤ 2)) ∧
    (((NewRaftNode "a" (some "s")).RequestVote
        { term := 0, candidateId := "c", lastLogIndex := 2, lastLogTerm := 2 }).2.voteGranted = true →
      ((NewRaftNode "a" (some "s")).RequestVote
        { term := 0, candidateId := "c", lastLogIndex := 2, lastLogTerm := 2 }).1.votedFor = some "c") ∧
    (((NewRaftNode "a" (some "s")).RequestVote
        { term := 0, candidateId := "c", lastLogIndex := 2, lastLogTerm := 2 }).2.voteGranted = false →
      ((NewRaftNode "a" (some "s")).RequestVote
        { term := 0, candidateId := "c", lastLogIndex := 2, lastLogTerm := 2 }).1 =
        NewRaftNode "a" (some "s")) :=
  C3_grant_rule_amended (NewRaftNode "a" (some "s"))
    { term := 0, candidateId := "c", lastLogIndex := 2, lastLogTerm := 2 } (by decide)

/-- C5: every `AppendEntries` request that passes the term check and
completes is answered `success = true` iff `prevLogIndex = -1`, or
`prevLogIndex < len(log)` and the term at `prevLogIndex` equals
`prevLogTerm`; on acceptance with non-empty entries the log becomes the old
prefix through `prevLogIndex` followed by the entries, and on a heartbeat
(empty entries) the log is unchanged. -/
theorem C5_appendEntries_consistency (node n' : RaftNode)
    (args : AppendEntriesRequest) (resp : AppendEntriesResponse)
    (hterm : ¬ args.term < node.currentTerm)
    (h : node.AppendEntries args = some (n', resp)) :
    (resp.success = true ↔
      (args.prevLogIndex = -1 ∨
       (args.prevLogIndex < (node.log.length : Int) ∧
        termAt node.log args.prevLogIndex = args.prevLogTerm))) ∧
    (resp.success = true →
      ((args.entries = [] → n'.log = node.log) ∧
       (args.entries ≠ [] →
        n'.log = node.log.take (args.prevLogIndex + 1).toNat ++ args.entries))) := by
  unfold RaftNode.AppendEntries at h
  rw [if_neg hterm] at h
  split at h
  · next hbeq =>
    have hpli : args.prevLogIndex = -1 := by simpa using hbeq
    obtain ⟨hresp, hlog, _, _⟩ := acceptEntries_spec _ _ _ _ h
    subst hresp
    refine ⟨⟨fun _ => Or.inl hpli, fun _ => rfl⟩, fun _ => ⟨?_, ?_⟩⟩
    · intro he
      rw [hlog]
      simp [he]
    · intro hne
      rw [hlog]
      cases hE : args.entries with
      | nil => exact absurd hE hne
      | cons a as => simp [hE]
  · next hbeq =>
    have hpli : args.prevLogIndex ≠ -1 := by simpa using hbeq
    split at h
    · next hlen =>
      have hn : node = n' := congrArg Prod.fst (Option.some.inj h)
      have hresp : resp = { term := node.currentTerm, success := false } :=
        (congrArg (fun p => p.2) (Option.some.inj h)).symm
      subst hresp
      refine ⟨?_, fun htrue => absurd htrue (by simp)⟩
      simp only [Bool.false_eq_true, false_iff]
      rintro (hc | ⟨hc1, _⟩)
      · exact hpli hc
      · omega
    · split at h
      · next heq => exact absurd h (by simp)
      · next e heq =>
        obtain ⟨hge, hlt, hterm_at⟩ := listGetInt_some _ _ _ heq
        split at h
        · next hne =>
          have hneq : e.term ≠ args.prevLogTerm := by simpa using hne
          have hn : node = n' := congrArg Prod.fst (Option.some.inj h)
          have hresp : resp = { term := node.currentTerm, success := false } :=
            (congrArg (fun p => p.2) (Option.some.inj h)).symm
          subst hresp
          refine ⟨?_, fun htrue => absurd htrue (by simp)⟩
          simp only [Bool.false_eq_true, false_iff]
          rintro (hc | ⟨_, hc2⟩)
          · exact hpli hc
          · rw [hterm_at] at hc2
            exact hneq hc2
        · next hne =>
          have heqt : e.term = args.prevLogTerm := by simpa using hne
          obtain ⟨hresp, hlog, _, _⟩ := acceptEntries_spec _ _ _ _ h
          subst hresp
          refine ⟨⟨fun _ => Or.inr ⟨hlt, by rw [hterm_at, heqt]⟩, fun _ => rfl⟩,
                  fun _ => ⟨?_, ?_⟩⟩
          · intro he
            rw [hlog]
            simp [he]
          · intro hnee
            rw [hlog]
            cases hE : args.entries with
            | nil => exact absurd hE hnee
            | cons a as => simp [hE]

theorem C5_appendEntries_consistency_witness :
    ((({ term := 0, success := true } : AppendEntriesResponse).success = true ↔
      ((-1 : Int) = -1 ∨
       ((-1 : Int) < ((NewRaftNode "a" (some "s")).log.length : Int) ∧
        termAt (NewRaftNode "a" (some "s")).log (-1) = 0))) ∧
     (({ term := 0, success := true } : AppendEntriesResponse).success = true →
       ((([] : List LogEntry) = [] →
           (NewRaftNode "a" (some "s")).log = (NewRaftNode "a" (some "s")).log) ∧
        (([] : List LogEntry) ≠ [] →
           (NewRaftNode "a" (some "s")).log =
             (NewRaftNode "a" (some "s")).log.take ((-1 : Int) + 1).toNat ++ [])))) :=
  C5_appendEntries_consistency (NewRaftNode "a" (some "s")) (NewRaftNode "a" (some "s"))
    { term := 0, leaderId := "s", prevLogIndex := -1, prevLogTerm := 0,
      entries := [], leaderCommit := -1 }
    { term := 0, success := true } (by decide) (by decide)

/-- C6 counterexample: a fresh follower accepts a heartbeat with
`leaderCommit = 1`, which raises `commitIndex` to `1 > lastApplied = -1` and
runs the commit/apply pipeline — yet afterwards `lastApplied = 0 ≠ 1 =
commitIndex`, because the source's `commit` uses `if`, not `while`, and
applies at most one entry per run. -/
theorem C6_single_step_counterexample :
    (((NewRaftNode "a" (some "s")).AppendEntries
        { term := 0, leaderId := "s", prevLogIndex := -1, prevLogTerm := 0,
          entries := [], leaderCommit := 1 }).map
      (fun p => (p.2.success, p.1.commitIndex, p.1.lastApplied))) =
      some (true, 1, 0) ∧ (0 : Int) ≠ 1 := by decide

/-- C6 (amended): each run of the commit/apply pipeline with
`commitIndex > lastApplied` increments `lastApplied` by exactly one and
applies the single entry `log[lastApplied + 1]` to the state machine — it
does not loop until `lastApplied = commitIndex`. -/
theorem C6_commit_one_step (node n' : RaftNode) (res : String) (ok : Bool)
    (hgt : node.lastApplied < node.commitIndex)
    (h : node.commit = some (n', res, ok)) :
    n'.lastApplied = node.lastApplied + 1 ∧ n'.commitIndex = node.commitIndex ∧
    n'.log = node.log ∧
    (∀ e, listGetInt node.log (node.lastApplied + 1) = some e →
      ({ node with lastApplied := node.lastApplied + 1 } : RaftNode).apply e.command =
        (n', res, ok)) := by
  unfold RaftNode.commit at h
  rw [if_pos hgt] at h
  split at h
  · next entry heq =>
    injection h with h
    have hfst : (({ node with lastApplied := node.lastApplied + 1 } : RaftNode).apply
        entry.command).1 = n' := congrArg Prod.fst h
    obtain ⟨h1, h2, h3⟩ := apply_state
      ({ node with lastApplied := node.lastApplied + 1 } : RaftNode) entry.command
    refine ⟨?_, ?_, ?_, ?_⟩
    · rw [← hfst, h1]
    · rw [← hfst]; exact h2
    · rw [← hfst]; exact h3
    · intro e he
      rw [heq] at he
      injection he with he
      rw [← he]
      exact h
  · exact absurd h (by simp)

theorem C6_commit_one_step_witness :
    ({ NewRaftNode "a" (some "s") with commitIndex := 1, lastApplied := 0 } : RaftNode).lastApplied =
      ({ NewRaftNode "a" (some "s") with commitIndex := 1 } : RaftNode).lastApplied + 1 ∧
    ({ NewRaftNode "a" (some "s") with commitIndex := 1, lastApplied := 0 } : RaftNode).commitIndex =
      ({ NewRaftNode "a" (some "s") with commitIndex := 1 } : RaftNode).commitIndex ∧
    ({ NewRaftNode "a" (some "s") with commitIndex := 1, lastApplied := 0 } : RaftNode).log =
      ({ NewRaftNode "a" (some "s") with commitIndex := 1 } : RaftNode).log ∧
    (∀ e, listGetInt ({ NewRaftNode "a" (some "s") with commitIndex := 1 } : RaftNode).log
        (({ NewRaftNode "a" (some "s") with commitIndex := 1 } : RaftNode).lastApplied + 1) = some e →
      ({ ({ NewRaftNode "a" (some "s") with commitIndex := 1 } : RaftNode) with
          lastApplied := ({ NewRaftNode "a" (some "s") with commitIndex := 1 } : RaftNode).lastApplied + 1 } : RaftNode).apply
          e.command =
        (({ NewRaftNode "a" (some "s") with commitIndex := 1, lastApplied := 0 } : RaftNode),
         "", false)) :=
  C6_commit_one_step ({ NewRaftNode "a" (some "s") with commitIndex := 1 } : RaftNode)
    ({ NewRaftNode "a" (some "s") with commitIndex := 1, lastApplied := 0 } : RaftNode)
    "" false (by decide) (by decide)

/-- C7 counterexample: leader with `nextIndex["b"] = 3`,
`matchIndex["b"] = -1`; a success response to a request with
`prevLogIndex = 2` and two entries. The claim demands
`matchIndex["b"] = 2 + 2 = 4` and `nextIndex["b"] = 5`; the code leaves
`matchIndex["b"]` at `-1` and merely increments `nextIndex["b"]` to `4`. -/
theorem C7_matchIndex_counterexample :
    ((handleAppendResponse
        ({ NewRaftNode "a" none with
            clusterAddrList := ["a", "b"]
            nextIndex := [("b", 3)]
            matchIndex := [("b", -1)] } : RaftNode) "b"
        { term := 0, leaderId := "a", prevLogIndex := 2, prevLogTerm := 2,
          entries := [{ term := 0, command := "x" }, { term := 0, command := "y" }],
          leaderCommit := -1 } true).map
      (fun p => (lookupMap p.1.nextIndex "b", lookupMap p.1.matchIndex "b", p.2.2))) =
      some (4, -1, true) ∧
    ((-1 : Int) ≠ 2 + 2) ∧ ((4 : Int) ≠ (2 + 2) + 1) := by decide

/-- C7 (amended): on a success response the code increments `nextIndex[p]` by
exactly one (it does not set it to `prevLogIndex + len(entries) + 1`) and
never touches `matchIndex`; on a failure response it decrements both the
request's `prevLogIndex` and `nextIndex[p]` by one with no lower bound at 0,
keeps the same entries for the retry, and only a success ends the loop. -/
theorem C7_response_handling_amended (node : RaftNode) (addr : Addr)
    (req : AppendEntriesRequest) (success : Bool) (n' : RaftNode)
    (req' : AppendEntriesRequest) (done : Bool)
    (h : handleAppendResponse node addr req success = some (n', req', done)) :
    n'.matchIndex = node.matchIndex ∧
    lookupMap n'.nextIndex addr =
      lookupMap node.nextIndex addr + (if success then 1 else -1) ∧
    done = success ∧
    req'.prevLogIndex = req.prevLogIndex - (if success then 0 else 1) ∧
    req'.entries = req.entries := by
  unfold handleAppendResponse at h
  cases success with
  | true =>
    rw [if_pos rfl] at h
    have hfst :
        ({ node with
           nextIndex := insertMap node.nextIndex addr (lookupMap node.nextIndex addr + 1) } :
          RaftNode) = n' :=
      congrArg Prod.fst (Option.some.inj h)
    have hreq : req = req' := congrArg (fun p => p.2.1) (Option.some.inj h)
    have hdone : done = true := (congrArg (fun p => p.2.2) (Option.some.inj h)).symm
    refine ⟨?_, ?_, ?_, ?_, ?_⟩
    · rw [← hfst]
    · rw [← hfst]
      simp only [if_pos rfl]
      exact lookupMap_insertMap_self node.nextIndex addr (lookupMap node.nextIndex addr + 1)
    · exact hdone
    · rw [← hreq]
      simp
    · rw [← hreq]
  | false =>
    rw [if_neg (by simp)] at h
    split at h
    · next hneg =>
      have hfst :
          ({ node with
             nextIndex := insertMap node.nextIndex addr (lookupMap node.nextIndex addr - 1) } :
            RaftNode) = n' :=
        congrArg Prod.fst (Option.some.inj h)
      have hreq :
          ({ req with
             prevLogIndex := req.prevLogIndex - 1
             prevLogTerm := (0 : Int) } : AppendEntriesRequest) = req' :=
        congrArg (fun p => p.2.1) (Option.some.inj h)
      have hdone : done = false := (congrArg (fun p => p.2.2) (Option.some.inj h)).symm
      refine ⟨?_, ?_, ?_, ?_, ?_⟩
      · rw [← hfst]
      · rw [← hfst]
        simp only [if_neg (by simp : ¬ false = true)]
        exact lookupMap_insertMap_self node.nextIndex addr (lookupMap node.nextIndex addr - 1)
      · exact hdone
      · rw [← hreq]
        simp
      · rw [← hreq]
    · split at h
      · next e heq =>
        have hfst :
            ({ node with
               nextIndex := insertMap node.nextIndex addr (lookupMap node.nextIndex addr - 1) } :
              RaftNode) = n' :=
          congrArg Prod.fst (Option.some.inj h)
        have hreq :
            ({ req with
               prevLogIndex := req.prevLogIndex - 1
               prevLogTerm := e.term } : AppendEntriesRequest) = req' :=
          congrArg (fun p => p.2.1) (Option.some.inj h)
        have hdone : done = false := (congrArg (fun p => p.2.2) (Option.some.inj h)).symm
        refine ⟨?_, ?_, ?_, ?_, ?_⟩
        · rw [← hfst]
        · rw [← hfst]
          simp only [if_neg (by simp : ¬ false = true)]
          exact lookupMap_insertMap_self node.nextIndex addr (lookupMap node.nextIndex addr - 1)
        · exact hdone
        · rw [← hreq]
          simp
        · rw [← hreq]
      · next heq => exact absurd h (by simp)

theorem C7_response_handling_amended_witness :
    ({ NewRaftNode "a" none with
        clusterAddrList := ["a", "b"]
        nextIndex := [("b", 4)] } : RaftNode).matchIndex =
      ({ NewRaftNode "a" none with
          clusterAddrList := ["a", "b"]
          nextIndex := [("b", 3)] } : RaftNode).matchIndex ∧
    lookupMap ({ NewRaftNode "a" none with
        clusterAddrList := ["a", "b"]
        nextIndex := [("b", 4)] } : RaftNode).nextIndex "b" =
      lookupMap ({ NewRaftNode "a" none with
          clusterAddrList := ["a", "b"]
          nextIndex := [("b", 3)] } : RaftNode).nextIndex "b" + (if true then 1 else -1) ∧
    (true = true) ∧
    ((2 : Int) = 2 - (if true then 0 else 1)) ∧
    ([({ term := 0, command := "x" } : LogEntry)] = [({ term := 0, command := "x" } : LogEntry)]) :=
  C7_response_handling_amended
    ({ NewRaftNode "a" none with
        clusterAddrList := ["a", "b"]
        nextIndex := [("b", 3)] } : RaftNode) "b"
    { term := 0, leaderId := "a", prevLogIndex := 2, prevLogTerm := 2,
      entries := [{ term := 0, command := "x" }], leaderCommit := -1 } true
    ({ NewRaftNode "a" none with
        clusterAddrList := ["a", "b"]
        nextIndex := [("b", 4)] } : RaftNode)
    { term := 0, leaderId := "a", prevLogIndex := 2, prevLogTerm := 2,
      entries := [{ term := 0, command := "x" }], leaderCommit := -1 } true
    (by decide)

/-- C8 counterexample: starting from a fresh follower, two heartbeats with
`leaderCommit = 2` bring the node to `commitIndex = 2`, `lastApplied = 1`;
a third accepted `AppendEntries` that truncates the log to a single entry
with `leaderCommit = 5` then sets `commitIndex = min(5, 0) = 0`. So
`commitIndex` decreased from `2` to `0`, and the resulting state has
`lastApplied = 1 > 0 = commitIndex`, refuting both halves of the claim. -/
theorem C8_commitIndex_decrease_counterexample :
    ((stepAE (stepAE (some (NewRaftNode "a" (some "s")))
        { term := 0, leaderId := "s", prevLogIndex := -1, prevLogTerm := 0,
          entries := [], leaderCommit := 2 })
        { term := 0, leaderId := "s", prevLogIndex := -1, prevLogTerm := 0,
          entries := [], leaderCommit := 2 }).map
      (fun n => (n.commitIndex, n.lastApplied))) = some (2, 1) ∧
    ((stepAE (stepAE (stepAE (some (NewRaftNode "a" (some "s")))
        { term := 0, leaderId := "s", prevLogIndex := -1, prevLogTerm := 0,
          entries := [], leaderCommit := 2 })
        { term := 0, leaderId := "s", prevLogIndex := -1, prevLogTerm := 0,
          entries := [], leaderCommit := 2 })
        { term := 0, leaderId := "s", prevLogIndex := -1, prevLogTerm := 0,
          entries := [{ term := 0, command := "x" }], leaderCommit := 5 }).map
      (fun n => (n.commitIndex, n.lastApplied))) = some (0, 1) ∧
    ¬ ((2 : Int) ≤ 0) ∧ ¬ ((1 : Int) ≤ 0) := by decide

/-- C8 (amended): `lastApplied` never decreases under any operation, and
`commitIndex` never decreases under `commit`, under `Execute`, or under an
`AppendEntries` that leaves the log untouched (empty `entries`) from a state
with `commitIndex < len(log)`; an `AppendEntries` that truncates the log can
decrease `commitIndex` (and break `lastApplied <= commitIndex`), as the
counterexample shows. -/
theorem C8_monotonicity_amended (node : RaftNode) :
    (∀ n' r o, node.commit = some (n', r, o) →
       node.lastApplied ≤ n'.lastApplied ∧ n'.commitIndex = node.commitIndex) ∧
    (∀ args n' resp, node.AppendEntries args = some (n', resp) →
       node.lastApplied ≤ n'.lastApplied) ∧
    (∀ args n' resp, node.AppendEntries args = some (n', resp) →
       args.entries = [] → node.commitIndex < (node.log.length : Int) →
       node.commitIndex ≤ n'.commitIndex) ∧
    (∀ cmd acks n' rep, node.Execute cmd acks = some (n', rep) →
       node.lastApplied ≤ n'.lastApplied ∧ node.commitIndex ≤ n'.commitIndex) := by
  refine ⟨?_, ?_, ?_, ?_⟩
  · intro n' r o h
    obtain ⟨hc1, hc2, _⟩ := commit_state _ _ _ _ h
    exact ⟨hc2, hc1⟩
  · intro args n' resp h
    rcases appendEntries_cases _ _ _ _ h with hn | hacc
    · rw [hn]
    · exact (acceptEntries_spec _ _ _ _ hacc).2.2.1
  · intro args n' resp h he hlen
    rcases appendEntries_cases _ _ _ _ h with hn | hacc
    · rw [hn]
    · obtain ⟨_, _, _, hci⟩ := acceptEntries_spec _ _ _ _ hacc
      rw [← hci]
      have htr : truncateAppend node args = node := by
        unfold truncateAppend
        rw [if_pos (by simp [he])]
      rw [htr]
      obtain ⟨_, _, _, hor⟩ := advanceCommit_state node args
      rcases hor with h1 | ⟨h2, h3⟩
      · rw [h1]
      · rw [h3]
        exact le_min (by omega) (by omega)
  · intro cmd acks n' rep h
    unfold RaftNode.Execute at h
    split at h
    · have hn : node = n' := congrArg Prod.fst (Option.some.inj h)
      rw [← hn]
      exact ⟨le_refl _, le_refl _⟩
    · split at h
      · split at h
        · next node2 res ok heq =>
          have hn : node2 = n' := congrArg Prod.fst (Option.some.inj h)
          obtain ⟨hc1, hc2, _⟩ := commit_state _ _ _ _ heq
          rw [hn] at hc1 hc2
          constructor
          · exact hc2
          · rw [hc1]
        · exact absurd h (by simp)
      · have hn :
            ({ node with
               log := node.log ++ [{ term := node.currentTerm, command := cmd }] } :
              RaftNode) = n' :=
          congrArg Prod.fst (Option.some.inj h)
        rw [← hn]
        exact ⟨le_refl _, le_refl _⟩

theorem C8_monotonicity_amended_witness :
    (NewRaftNode "a" none).lastApplied ≤ (NewRaftNode "a" none).lastApplied ∧
    (NewRaftNode "a" none).commitIndex = (NewRaftNode "a" none).commitIndex :=
  (C8_monotonicity_amended (NewRaftNode "a" none)).1 (NewRaftNode "a" none) "" false (by decide)

end Raft
